import Mathlib

/-!
Verification of the mzsvg chart-rendering core.

A shallow embedding, in Lean 4, of the coordinate/scale model, color cycle,
series slicing/rendering and chart orchestration of the `mzsvg` repository
(`src/linear.rs`, `src/v2/series.rs`, `src/v2/chart_regions.rs`,
`src/v2/chart.rs`), together with theorems settling the specification's
claims about them.

Modelling conventions:
* The source is generic over `num_traits::Float` (instantiated at `f32`/`f64`).
  The embedding uses exact rationals `ℚ` for finite machine-float values, so
  "within floating-point tolerance" becomes exact equality, and
  `is_well_formed` (both bounds finite and non-NaN) holds for every
  representable value.  Where the source can produce a non-finite float
  (division by a zero-size range), the embedding makes this explicit with the
  `FVal` type below instead of inventing a junk value.
* `Vec` becomes `List`; iterator `filter`/`collect` pipelines become
  `List.filter`/`List.map`; struct update is Lean struct update.
* SVG nodes from the `svg` crate are modelled as a tree (`SVGNode`).  The
  crate renders numeric attribute values to strings via float `Display`;
  decimal float printing is not re-modelled: numeric attribute payloads are
  kept structurally in `AttrValue`.
-/

/-- The result of a machine floating-point computation: either a finite value
(modelled exactly as a rational) or a non-finite one (NaN or ±infinity).
`nonfinite` arises in the source exactly where a division by a zero-size
range occurs. -/
inductive FVal where
  | fin (q : ℚ)
  | nonfinite
deriving DecidableEq, Repr

/-- Rust `CoordinateRange<T>` from `src/linear.rs`: a 1-D interval `{start, end}`.
The Rust field `end` is spelled `end_` (`end` is a Lean keyword). -/
structure CoordinateRange where
  start : ℚ
  end_ : ℚ
deriving DecidableEq, Repr

namespace CoordinateRange

/-- Rust `CoordinateRange::new` (src/linear.rs:10). -/
def new (start end_ : ℚ) : CoordinateRange := ⟨start, end_⟩

/-- Rust `CoordinateRange::size` (src/linear.rs:18): `end - start`. -/
def size (c : CoordinateRange) : ℚ := c.end_ - c.start

/-- Rust `CoordinateRange::transform` (src/linear.rs:22):
`((value - self.start) / self.size()).to_f64().unwrap()`.
In floating point, dividing by a zero `size()` yields NaN (when the numerator
is also zero) or ±infinity — in every case a non-finite value; for a nonzero
size the idealized computation is exact. -/
def transform (c : CoordinateRange) (value : ℚ) : FVal :=
  if c.size = 0 then .nonfinite else .fin ((value - c.start) / c.size)

/-- The lift of `transform` to an already-computed float input (used when the
source feeds one transform's `f64` output into another's input): any
non-finite input propagates to a non-finite output, since
`(NaN - s)/z = NaN` and `(±∞ - s)/z` is ±∞ or NaN. -/
def transformF (c : CoordinateRange) (value : FVal) : FVal :=
  match value with
  | .nonfinite => .nonfinite
  | .fin q => c.transform q

/-- Rust `CoordinateRange::inverse_transform` (src/linear.rs:26):
`(v * self.size()) + self.start`.  A non-finite input propagates
(`NaN * z + s = NaN`, `±∞ * z + s` is ±∞ or NaN). -/
def inverse_transform (c : CoordinateRange) (value : FVal) : FVal :=
  match value with
  | .nonfinite => .nonfinite
  | .fin v => .fin (v * c.size + c.start)

/-- Rust `CoordinateRange::min` (src/linear.rs:39). -/
def minVal (c : CoordinateRange) : ℚ := min c.start c.end_

/-- Rust `CoordinateRange::max` (src/linear.rs:43). -/
def maxVal (c : CoordinateRange) : ℚ := max c.start c.end_

/-- Rust `CoordinateRange::clamp` (src/linear.rs:47). -/
def clamp (c : CoordinateRange) (value : ℚ) : ℚ :=
  let p := if c.start < c.end_ then (c.start, c.end_) else (c.end_, c.start)
  if value < p.1 then p.1 else if value > p.2 then p.2 else value

end CoordinateRange

/-- Rust `Scale<T>` from `src/linear.rs`: a domain range composed with a device
range. -/
structure Scale where
  domain : CoordinateRange
  range : CoordinateRange
deriving DecidableEq, Repr

namespace Scale

/-- Rust `Scale::transform` (src/linear.rs:98): normalize through the domain, then
denormalize through the range. -/
def transform (s : Scale) (value : ℚ) : FVal :=
  let i := s.domain.transform value
  s.range.inverse_transform i

/-- Rust `Scale::inverse_transform` (src/linear.rs:103), lifted to a float input so
that it can consume the output of `transform`. -/
def inverse_transform (s : Scale) (value : FVal) : FVal :=
  let i := s.range.transformF value
  s.domain.inverse_transform i

end Scale


/-- Rust `ColorCycle` from `src/v2/series.rs` (same code in `src/series.rs`): a
palette of colors and a cursor. -/
structure ColorCycle where
  colors : List String
  index : Nat
deriving DecidableEq, Repr

namespace ColorCycle

/-- The default v2 palette `DEFAULT_COLOR_CYCLE` (src/v2/series.rs:15). -/
def DEFAULT_COLOR_CYCLE : List String :=
  ["black", "steelblue", "blueviolet", "midnightblue", "lightseagreen",
   "limegreen", "goldenrod", "firebrick", "crimson"]

/-- Rust `impl Iterator for ColorCycle — fn next` (src/v2/series.rs:45, identical
in src/series.rs:39).  Rust mutates `self`; the embedding returns the yielded
value together with the updated state:
```
if self.index + 1 >= self.colors.len() { self.index = 0; }
let value = self.colors.get(self.index).and_then(|s| Some(s.clone()));
self.index += 1;
value
```
-/
def next (c : ColorCycle) : Option String × ColorCycle :=
  let c := if c.index + 1 ≥ c.colors.length then { c with index := 0 } else c
  let value := c.colors.get? c.index
  (value, { c with index := c.index + 1 })

/-- The state of a `ColorCycle` after `k` calls to `next`. -/
def stateAfter (c : ColorCycle) : Nat → ColorCycle
  | 0 => c
  | k + 1 => (stateAfter c k).next.2

/-- The value yielded by call number `k + 1` to `next` (0-indexed call
counter): the first component of `next` applied to the state reached after
`k` prior calls. -/
def nthNext (c : ColorCycle) (k : Nat) : Option String :=
  ((stateAfter c k).next).1

end ColorCycle


/-- Attribute values of SVG elements (`svg::node::Value`).  The crate converts
every value to a string via `Display`; numeric payloads are kept structurally
here instead of re-modelling decimal float printing. -/
inductive AttrValue where
  | str (v : String)
  | num (v : ℚ)
  | fnum (v : FVal)
  | em (v : ℚ)
  | translatePair (x y : FVal)
  | pointsList (pts : List (FVal × FVal))
deriving DecidableEq, Repr

/-- A tree model of the nodes from the `svg` crate used by the series
renderers: groups (the only containers used), paths, polylines, circles,
lines and text.  Attributes are kept in insertion order (no embedded code path
sets the same key twice). -/
inductive SVGNode where
  | group (attrs : List (String × AttrValue)) (children : List SVGNode)
  | path (attrs : List (String × AttrValue))
  | polyline (attrs : List (String × AttrValue))
  | circleEl (attrs : List (String × AttrValue))
  | lineEl (attrs : List (String × AttrValue))
  | textEl (attrs : List (String × AttrValue)) (content : String)

namespace SVGNode

/-- Rust `.set(key, value)` of the `svg` crate: record an attribute. -/
def setAttr : SVGNode → String → AttrValue → SVGNode
  | group attrs children, k, v => group (attrs ++ [(k, v)]) children
  | path attrs, k, v => path (attrs ++ [(k, v)])
  | polyline attrs, k, v => polyline (attrs ++ [(k, v)])
  | circleEl attrs, k, v => circleEl (attrs ++ [(k, v)])
  | lineEl attrs, k, v => lineEl (attrs ++ [(k, v)])
  | textEl attrs content, k, v => textEl (attrs ++ [(k, v)]) content

/-- Rust `.add(child)` of the `svg` crate: append a child.  Only `Group` is used
as a container in the embedded code. -/
def addChild : SVGNode → SVGNode → SVGNode
  | group attrs children, child => group attrs (children ++ [child])
  | n, _ => n

end SVGNode

/-- Rust `SeriesDescription` (src/v2/series.rs:101). -/
structure SeriesDescription where
  label : String
  color : String
  tag : String
deriving DecidableEq, Repr

namespace SeriesDescription

/-- Rust `SeriesDescription::new` (src/v2/series.rs:108): empty tag. -/
def new (label color : String) : SeriesDescription := ⟨label, color, ""⟩

/-- Rust `impl From<String> for SeriesDescription` (src/v2/series.rs:130):
default color "black". -/
def fromLabel (label : String) : SeriesDescription := new label "black"

/-- Rust `SeriesDescription::series_type` (src/v2/series.rs:121). -/
def series_type (d : SeriesDescription) : String := d.label

/-- Rust `SeriesDescription::id` (src/v2/series.rs:125): `format!("{}-{}", label, tag)`. -/
def id (d : SeriesDescription) : String := d.label ++ "-" ++ d.tag

end SeriesDescription

/-- Rust `HorizontalAlignment` (src/v2/chart_regions.rs:454). -/
inductive HorizontalAlignment where
  | start
  | middle
  | end_
deriving DecidableEq, Repr

/-- Rust `HorizontalAlignment::render` (src/v2/chart_regions.rs:462). -/
def HorizontalAlignment.render : HorizontalAlignment → String
  | .start => "start"
  | .middle => "middle"
  | .end_ => "end"

/-- Rust `TextProps` (src/v2/chart_regions.rs:472). -/
structure TextProps where
  text_size : ℚ
  horizontal_alignment : HorizontalAlignment
  font_family : String
  color : String
deriving DecidableEq, Repr

namespace TextProps

/-- Rust `impl Default for TextProps` (src/v2/chart_regions.rs:489). -/
def default : TextProps := ⟨1, .middle, "serif", "black"⟩

/-- Rust `TextProps::text` (src/v2/chart_regions.rs:480): a `Text` node with
font-family, text-anchor, font-size (`format!("{}em", …)`) and fill. -/
def text (tp : TextProps) (content : String) : SVGNode :=
  .textEl
    [("font-family", .str tp.font_family),
     ("text-anchor", .str tp.horizontal_alignment.render),
     ("font-size", .em tp.text_size),
     ("fill", .str tp.color)] content

end TextProps

/-- Rust `XAxis<T>` (src/v2/chart_regions.rs:163). -/
structure XAxis where
  scale : Scale
deriving DecidableEq, Repr

/-- Rust `XAxis::domain` (src/v2/chart_regions.rs:172). -/
def XAxis.domain (a : XAxis) : CoordinateRange := a.scale.domain

/-- Rust `YAxis<T>` (src/v2/chart_regions.rs:182). -/
structure YAxis where
  scale : Scale
deriving DecidableEq, Repr

/-- Rust `YAxis::domain` (src/v2/chart_regions.rs:191). -/
def YAxis.domain (a : YAxis) : CoordinateRange := a.scale.domain

/-- Rust `Canvas<X, Y>` (src/v2/chart_regions.rs:93).  The generic parameters
(`f64` for X, `f32` for Y at the chart instantiations) are both modelled
as exact rationals. -/
structure Canvas where
  width : Nat
  height : Nat
  x_axis : XAxis
  y_axis : YAxis
  groups : List SVGNode
  subplot_offset : Option (ℚ × ℚ)

namespace Canvas

/-- Rust `Canvas::new` (src/v2/chart_regions.rs:103): both scales start with
domain = range = `[0, width]` (resp. `[0, height]`). -/
def new (width height : Nat) : Canvas :=
  let xdomain := CoordinateRange.new 0 width
  let x_axis := XAxis.mk (Scale.mk xdomain xdomain)
  let ydomain := CoordinateRange.new 0 height
  let y_axis := YAxis.mk (Scale.mk ydomain ydomain)
  ⟨width, height, x_axis, y_axis, [], none⟩

/-- Rust `Canvas::update_scales` (src/v2/chart_regions.rs:122): replace both
domains, keep both device ranges. -/
def update_scales (c : Canvas) (x_range y_range : CoordinateRange) : Canvas :=
  { c with
    x_axis := { c.x_axis with scale := { c.x_axis.scale with domain := x_range } }
    y_axis := { c.y_axis with scale := { c.y_axis.scale with domain := y_range } } }

/-- Rust `Canvas::transform` (src/v2/chart_regions.rs:127): map a data point
through both scales to device coordinates. -/
def transform (c : Canvas) (x y : ℚ) : FVal × FVal :=
  (c.x_axis.scale.transform x, c.y_axis.scale.transform y)

/-- Rust `Canvas::push_layer` (src/v2/chart_regions.rs:134). -/
def push_layer (c : Canvas) (group : SVGNode) : Canvas :=
  { c with groups := c.groups ++ [group] }

end Canvas

/-- Rust `LineSeries<X, Y>` (src/v2/series.rs:143): an open polyline. -/
structure LineSeries where
  points : List (ℚ × ℚ)
  description : SeriesDescription

namespace LineSeries

/-- Rust `LineSeries::to_svg` (src/v2/series.rs:167): one `Polyline` through
the transformed points, wrapped in a group tagged with class and id. -/
def to_svg (s : LineSeries) (canvas : Canvas) : SVGNode :=
  let path_data := s.points.map fun p =>
    (canvas.x_axis.scale.transform p.1, canvas.y_axis.scale.transform p.2)
  let path := (SVGNode.polyline []).setAttr "points" (.pointsList path_data)
    |>.setAttr "fill" (.str "none")
    |>.setAttr "stroke" (.str s.description.color)
    |>.setAttr "stroke-width" (.num 1)
  (SVGNode.group [] []).addChild path
    |>.setAttr "class" (.str s.description.label)
    |>.setAttr "id" (.str s.description.id)

/-- Rust `LineSeries::slice_x` (src/v2/series.rs:208): keep the points with
`x >= start && x <= end`. -/
def slice_x (s : LineSeries) (start end_ : ℚ) : LineSeries :=
  { s with points := s.points.filter fun p => decide (start ≤ p.1 ∧ p.1 ≤ end_) }

/-- Rust `LineSeries::slice_y` (src/v2/series.rs:218): keep the points with
`y >= start && y <= end`. -/
def slice_y (s : LineSeries) (start end_ : ℚ) : LineSeries :=
  { s with points := s.points.filter fun p => decide (start ≤ p.2 ∧ p.2 ≤ end_) }

end LineSeries

/-- Rust `ContinuousSeries<X, Y>` (src/v2/series.rs:230): an ordered point
list rendered as a closed, baseline-anchored path.  The renderer
(`to_svg`, src/v2/series.rs:254) is not required by the claims settled here;
the slicing operations are embedded. -/
structure ContinuousSeries where
  points : List (ℚ × ℚ)
  description : SeriesDescription

namespace ContinuousSeries

/-- Rust `ContinuousSeries::slice_x` (src/v2/series.rs:299): keep the points
with `x >= start && x <= end`. -/
def slice_x (s : ContinuousSeries) (start end_ : ℚ) : ContinuousSeries :=
  { s with points := s.points.filter fun p => decide (start ≤ p.1 ∧ p.1 ≤ end_) }

/-- Rust `ContinuousSeries::slice_y` (src/v2/series.rs:309). -/
def slice_y (s : ContinuousSeries) (start end_ : ℚ) : ContinuousSeries :=
  { s with points := s.points.filter fun p => decide (start ≤ p.2 ∧ p.2 ≤ end_) }

end ContinuousSeries

/-- Rust `AnnotationSeries<X, Y>` (src/v2/series.rs:321): labelled points. -/
structure AnnotationSeries where
  points : List (ℚ × ℚ × String)
  description : SeriesDescription
  text_props : TextProps

namespace AnnotationSeries

/-- Rust `AnnotationSeries::to_svg` (src/v2/series.rs:389): for each point, a
sub-group translated to the transformed position holding the text label. -/
def to_svg (s : AnnotationSeries) (canvas : Canvas) : SVGNode :=
  s.points.foldl
    (fun group pt =>
      let xy := canvas.transform pt.1 pt.2.1
      group.addChild
        ((SVGNode.group [] []).setAttr "transform" (.translatePair xy.1 xy.2)
          |>.addChild (s.text_props.text pt.2.2)))
    (SVGNode.group [] [])

/-- Rust `AnnotationSeries::slice_x` (src/v2/series.rs:338). -/
def slice_x (s : AnnotationSeries) (start end_ : ℚ) : AnnotationSeries :=
  { s with points := s.points.filter fun p => decide (start ≤ p.1 ∧ p.1 ≤ end_) }

/-- Rust `AnnotationSeries::slice_y` (src/v2/series.rs:348). -/
def slice_y (s : AnnotationSeries) (start end_ : ℚ) : AnnotationSeries :=
  { s with points := s.points.filter fun p => decide (start ≤ p.2.1 ∧ p.2.1 ≤ end_) }

end AnnotationSeries

/-- Rust `TraceSeries<X, Y, C1, C2, F>` (src/v2/series.rs:710).  The stored
`feature` handle is an external `mzpeaks::FeatureLike` value read only once,
at construction, to build `points`; slicing and rendering consume `points`,
so the embedding keeps only those. -/
structure TraceSeries where
  points : List (ℚ × ℚ)
  description : SeriesDescription

namespace TraceSeries

/-- Rust `TraceSeries::slice_x` (src/v2/series.rs:808). -/
def slice_x (s : TraceSeries) (start end_ : ℚ) : TraceSeries :=
  { s with points := s.points.filter fun p => decide (start ≤ p.1 ∧ p.1 ≤ end_) }

/-- Rust `TraceSeries::slice_y` (src/v2/series.rs:818). -/
def slice_y (s : TraceSeries) (start end_ : ℚ) : TraceSeries :=
  { s with points := s.points.filter fun p => decide (start ≤ p.2 ∧ p.2 ≤ end_) }

end TraceSeries

/-- Rust `ScatterSeries<X, Y, R>` (src/v2/series.rs:865): points with a
per-point radius.  The radius parameter `R: Into<svg::node::Value>` is
modelled as a rational. -/
structure ScatterSeries where
  points : List (ℚ × ℚ × ℚ)
  description : SeriesDescription

namespace ScatterSeries

/-- Rust `ScatterSeries::slice_x` (src/v2/series.rs:896). -/
def slice_x (s : ScatterSeries) (start end_ : ℚ) : ScatterSeries :=
  { s with points := s.points.filter fun p => decide (start ≤ p.1 ∧ p.1 ≤ end_) }

/-- Rust `ScatterSeries::slice_y` (src/v2/series.rs:903). -/
def slice_y (s : ScatterSeries) (start end_ : ℚ) : ScatterSeries :=
  { s with points := s.points.filter fun p => decide (start ≤ p.2.1 ∧ p.2.1 ≤ end_) }

end ScatterSeries

/-- A centroid peak as consumed by `peaks_to_arrays`: the source is generic
over `P: MZLocated + IntensityMeasurement` (external mzpeaks traits exposing
`mz()` and `intensity()`); the embedding keeps exactly those two
observations. -/
structure Peak where
  mz : ℚ
  intensity : ℚ
deriving DecidableEq, Repr

/-- Rust `peaks_to_arrays` (src/v2/series.rs:424): for each peak, in input
order, push `(mz - 0.0001, 0)`, `(mz, intensity)`, `(mz + 0.0001, 0)`. -/
def peaks_to_arrays : List Peak → List (ℚ × ℚ)
  | [] => []
  | p :: rest =>
    (p.mz - 0.0001, 0) :: (p.mz, p.intensity) :: (p.mz + 0.0001, 0) ::
      peaks_to_arrays rest


/-- Fixed two-decimal formatting, modelling the Rust format specifier
`{:0.2}` applied to the precursor m/z: round to the nearest hundredth and
print with exactly two fractional digits.  (Rust's float `Display` breaks
exact ties to even; the tie direction is immaterial to the claims settled
here.) -/
def formatFixed2 (x : ℚ) : String :=
  let n : Int := round (x * 100)
  let sign := if n < 0 then "-" else ""
  let a := n.natAbs
  let ip := a / 100
  let fp := a % 100
  let fracDigits := if fp < 10 then "0" ++ toString fp else toString fp
  sign ++ toString ip ++ "." ++ fracDigits

/-- Rust `PrecursorSeries<X, Y>` (src/v2/series.rs:620): a single selected-ion
point with a visibility flag. -/
structure PrecursorSeries where
  mz : ℚ
  intensity : ℚ
  charge : Option Int
  in_frame : Bool
  description : SeriesDescription

namespace PrecursorSeries

/-- Rust `PrecursorSeries::new` (src/v2/series.rs:681): starts in frame. -/
def new (mz intensity : ℚ) (charge : Option Int) (description : SeriesDescription) :
    PrecursorSeries :=
  ⟨mz, intensity, charge, true, description⟩

/-- Rust `PrecursorSeries::to_svg` (src/v2/series.rs:638): an empty group when
out of frame; otherwise an annotation (`"{mz:0.2}, {charge}"`, small skyblue
text) plus a dashed drop line from the baseline to 95% of the intensity
clamped at the Y domain maximum, wrapped in a group with class `precursor`. -/
def to_svg (p : PrecursorSeries) (canvas : Canvas) : SVGNode :=
  let root := SVGNode.group [] []
  if !p.in_frame then root
  else
    let x := p.mz
    let y := min p.intensity canvas.y_axis.domain.maxVal * (0.95 : ℚ)
    let z := p.charge.getD 0
    let s := formatFixed2 x ++ ", " ++ toString z
    let pts := [(x, y, s)]
    let text_props : TextProps :=
      { TextProps.default with text_size := 0.8, color := "skyblue" }
    let annot := AnnotationSeries.mk pts (.fromLabel "precursor-label") text_props
    let annot_group := (annot.to_svg canvas).setAttr "stroke" (.str "black")
      |>.setAttr "stroke-width" (.str "0.1pt")
    let line_group :=
      ((LineSeries.mk [(x, 0), (x, y)] (.fromLabel "precursor-line")).to_svg canvas)
        |>.setAttr "stroke-dasharray" (.num 4)
        |>.setAttr "stroke" (.str p.description.color)
        |>.setAttr "stroke-width" (.str "0.5pt")
    root.addChild annot_group
      |>.addChild line_group
      |>.setAttr "class" (.str "precursor")
      |>.setAttr "id" (.str p.description.id)

/-- Rust `PrecursorSeries::slice_x` (src/v2/series.rs:671):
`self.in_frame = start <= self.mz && self.mz <= end;` — the data itself is
kept. -/
def slice_x (p : PrecursorSeries) (start end_ : ℚ) : PrecursorSeries :=
  { p with in_frame := decide (start ≤ p.mz ∧ p.mz ≤ end_) }

/-- Rust `PrecursorSeries::slice_y` (src/v2/series.rs:675):
`self.intensity = start.max(end);`. -/
def slice_y (p : PrecursorSeries) (start end_ : ℚ) : PrecursorSeries :=
  { p with intensity := max start end_ }

end PrecursorSeries

/-- Rust `AxisOrientation` (src/v2/chart_regions.rs:15). -/
inductive AxisOrientation where
  | top
  | right
  | bottom
  | left
deriving DecidableEq, Repr

/-- Rust `AxisTickLabelStyle` (src/v2/chart_regions.rs:211). -/
inductive AxisTickLabelStyle where
  | precision (p : Nat)
  | sciNot (p : Nat)
  | percentile (p : Nat)
deriving DecidableEq, Repr

/-- Rust `AxisProps<T>` (src/v2/chart_regions.rs:250). -/
structure AxisProps where
  tick_padding : ℚ
  tick_size_outer : ℚ
  tick_size_inner : ℚ
  tick_format : AxisTickLabelStyle
  axis_orientation : AxisOrientation
  tick_values : Option (List ℚ)
  label : Option String
  id : Option String
  tick_label_size : Option ℚ
  axis_label_size : Option ℚ

namespace AxisProps

/-- Rust `AxisProps::new` (src/v2/chart_regions.rs:267). -/
def new (axis_orientation : AxisOrientation) : AxisProps :=
  { tick_format := .precision 2
    tick_padding := 3
    tick_size_outer := 6
    tick_size_inner := 6
    axis_orientation
    tick_values := none
    label := none
    id := none
    tick_label_size := none
    axis_label_size := none }

/-- The tick-value generation at the top of Rust `AxisProps::to_svg`
(src/v2/chart_regions.rs:317-333): explicit `tick_values` if supplied,
otherwise six values stepping by a fifth of the domain span, upward from
`domain.start` when `start <= end` and upward from `domain.end` otherwise. -/
def to_svg_values (props : AxisProps) (domain : CoordinateRange) : List ℚ :=
  match props.tick_values with
  | some vs => vs
  | none =>
    if domain.start ≤ domain.end_ then
      let span := domain.end_ - domain.start
      let step := span / 5
      (List.range 6).map fun i : ℕ => domain.start + step * (i : ℚ)
    else
      let span := domain.start - domain.end_
      let step := span / 5
      (List.range 6).map fun i : ℕ => domain.end_ + step * (i : ℚ)

end AxisProps


/-- The outcome of a Rust computation that may `panic!` (here: only via
`Option::unwrap` on `None`): either a normal result or a panic.  A panic is
an untyped process abort, not a defined error value. -/
inductive PanicOr (α : Type) where
  | panicked
  | ok (val : α)

/-- The members of the Rust trait `PlotSeries<f64, f32>` that
`SpectrumSVG::draw_series` (src/v2/chart.rs:331) actually invokes, bundled so
that the generic `S: PlotSeries<f64, f32>` dispatch can be modelled. -/
structure PlotSeriesImpl (S : Type) where
  slice_x : S → ℚ → ℚ → S
  to_svg : S → Canvas → SVGNode

/-- The `PlotSeries` implementation of `LineSeries` (src/v2/series.rs:195). -/
def LineSeries.plotSeriesImpl : PlotSeriesImpl LineSeries :=
  ⟨LineSeries.slice_x, LineSeries.to_svg⟩

/-- The `PlotSeries` implementation of `PrecursorSeries`
(src/v2/series.rs:629). -/
def PrecursorSeries.plotSeriesImpl : PlotSeriesImpl PrecursorSeries :=
  ⟨PrecursorSeries.slice_x, PrecursorSeries.to_svg⟩

/-- Rust `SpectrumSVG` (src/v2/chart.rs:137).  The `series` registry
(`HashMap<String, Vec<SeriesDescription>>`) is modelled as an association
list. -/
structure SpectrumSVG where
  canvas : Canvas
  colors : ColorCycle
  xticks : AxisProps
  yticks : AxisProps
  x_range : Option CoordinateRange
  y_range : Option CoordinateRange
  finished : Bool
  series : List (String × List SeriesDescription)
  custom_css : Option String

namespace SpectrumSVG

/-- Rust `impl Default for SpectrumSVG` (src/v2/chart.rs:149): a 1400×600
canvas, the default color cycle, bottom/left axes, no ranges. -/
def default : SpectrumSVG :=
  { canvas := Canvas.new 1400 600
    colors := ⟨ColorCycle.DEFAULT_COLOR_CYCLE, 0⟩
    xticks := { AxisProps.new .bottom with label := some "m/z", id := some "x-axis" }
    yticks := { AxisProps.new .left with
                  label := some "Intensity"
                  tick_format := .percentile 2
                  id := some "y-axis" }
    x_range := none
    y_range := none
    finished := false
    series := []
    custom_css := none }

/-- Rust `SpectrumSVG::axes_from` (src/v2/chart.rs:201).  The values the
source extracts from the external `mzdata` spectrum are taken as parameters:
`max_int` is `spectrum.peaks().base_peak().intensity`, and
`(min_mz, max_mz)` is the scan-window fold over the first scan (defaulting to
`(50, 2000)` when there is none).  On the first data source the Y range is
`(max_int, 0)` and the X range `(min_mz * 0.95, max_mz * 1.05)`; afterwards
`y.start = y.start.max(max_int)`, `x.start = x.start.min(min_mz)`,
`x.end = x.end.max(max_mz)`.  Both canvas scales are then refreshed. -/
def axes_from (chart : SpectrumSVG) (max_int min_mz max_mz : ℚ) : SpectrumSVG :=
  let yr : CoordinateRange :=
    match chart.y_range with
    | none => CoordinateRange.new max_int 0
    | some y => { y with start := max y.start max_int }
  let xr : CoordinateRange :=
    match chart.x_range with
    | none => CoordinateRange.new (min_mz * (0.95 : ℚ)) (max_mz * (1.05 : ℚ))
    | some x => { x with start := min x.start min_mz, end_ := max x.end_ max_mz }
  { chart with
    y_range := some yr
    x_range := some xr
    canvas := chart.canvas.update_scales xr yr }

/-- Rust `SpectrumSVG::draw_series` (src/v2/chart.rs:331):
```
series.slice_x(self.x_range.as_ref().unwrap().start,
               self.x_range.as_ref().unwrap().end);
let sgroup = series.to_svg(&self.canvas);
self.canvas.push_layer(sgroup)
```
`unwrap()` on a `None` x_range is a panic, modelled as `PanicOr.panicked`. -/
def draw_series {S : Type} (impl : PlotSeriesImpl S) (chart : SpectrumSVG)
    (series : S) : PanicOr SpectrumSVG :=
  match chart.x_range with
  | none => .panicked
  | some xr =>
    let series := impl.slice_x series xr.start xr.end_
    let sgroup := impl.to_svg series chart.canvas
    .ok { chart with canvas := chart.canvas.push_layer sgroup }

end SpectrumSVG

/-- Rust `FeatureSVG` (src/v2/chart.rs:423): same shape as `SpectrumSVG`. -/
structure FeatureSVG where
  canvas : Canvas
  colors : ColorCycle
  xticks : AxisProps
  yticks : AxisProps
  x_range : Option CoordinateRange
  y_range : Option CoordinateRange
  finished : Bool
  series : List (String × List SeriesDescription)
  custom_css : Option String

namespace FeatureSVG

/-- Rust `FeatureSVG::axes_from` (src/v2/chart.rs:466).  The values extracted
from the external `mzpeaks` feature are parameters: `max_int` is the maximum
observed z-value, `start_time`/`end_time` the feature's time bounds.  The
update logic is the same min/max accumulation as for `SpectrumSVG`. -/
def axes_from (chart : FeatureSVG) (max_int start_time end_time : ℚ) : FeatureSVG :=
  let yr : CoordinateRange :=
    match chart.y_range with
    | none => CoordinateRange.new max_int 0
    | some y => { y with start := max y.start max_int }
  let xr : CoordinateRange :=
    match chart.x_range with
    | none => CoordinateRange.new (start_time * (0.95 : ℚ)) (end_time * (1.05 : ℚ))
    | some x => { x with start := min x.start start_time, end_ := max x.end_ end_time }
  { chart with
    y_range := some yr
    x_range := some xr
    canvas := chart.canvas.update_scales xr yr }

end FeatureSVG

/-- The set of coordinate values covered by a `CoordinateRange`, written from
the specification's words for the widening claim: the closed interval between
the two bounds, regardless of orientation. -/
def coveredValues (c : CoordinateRange) : Set ℚ :=
  Set.Icc (min c.start c.end_) (max c.start c.end_)

/-- C1: for every CoordinateRange `c` with `size() ≠ 0` (well-formedness is
automatic in the exact-rational embedding) and every value `v`,
`c.inverse_transform(c.transform(v)) = v`, and for every Scale whose domain
and range both have nonzero size, `inverse_transform(transform(v)) = v`;
"within floating-point tolerance" is exact equality here. -/
theorem claim_c1_transform_roundtrip :
    (∀ (c : CoordinateRange) (v : ℚ), c.size ≠ 0 →
      c.inverse_transform (c.transform v) = .fin v) ∧
    (∀ (s : Scale) (v : ℚ), s.domain.size ≠ 0 → s.range.size ≠ 0 →
      s.inverse_transform (s.transform v) = .fin v) := by
  constructor
  · intro c v h
    simp only [CoordinateRange.transform, CoordinateRange.inverse_transform, if_neg h]
    congr 1
    field_simp
  · intro s v hd hr
    simp only [Scale.transform, Scale.inverse_transform, CoordinateRange.transform,
      CoordinateRange.inverse_transform, CoordinateRange.transformF, if_neg hd, if_neg hr]
    congr 1
    field_simp
    ring

/-- Witness for C1 at the concrete range (20, 120), value 70, and the scale
mapping domain (0, 100) onto device range (600, 0), value 25. -/
theorem claim_c1_transform_roundtrip_witness :
    (CoordinateRange.new 20 120).inverse_transform
        ((CoordinateRange.new 20 120).transform 70) = .fin 70 ∧
    (Scale.mk (CoordinateRange.new 0 100) (CoordinateRange.new 600 0)).inverse_transform
        ((Scale.mk (CoordinateRange.new 0 100) (CoordinateRange.new 600 0)).transform 25) =
      .fin 25 :=
  ⟨claim_c1_transform_roundtrip.1 _ 70
      (by norm_num [CoordinateRange.size, CoordinateRange.new]),
   claim_c1_transform_roundtrip.2 _ 25
      (by norm_num [CoordinateRange.size, CoordinateRange.new])
      (by norm_num [CoordinateRange.size, CoordinateRange.new])⟩

/-- C2 (code evaluated at the failing input): `CoordinateRange::transform`
has no error path at all — on the zero-size range (5, 5) it divides by zero
and the value 7 maps to a non-finite float (±∞/NaN), contradicting the
claim that a defined degenerate-scale error is raised. -/
theorem claim_c2_zero_size_transform_nonfinite :
    (CoordinateRange.new 5 5).size = 0 ∧
    (CoordinateRange.new 5 5).transform 7 = .nonfinite := by
  constructor
  · norm_num [CoordinateRange.size, CoordinateRange.new]
  · norm_num [CoordinateRange.transform, CoordinateRange.size, CoordinateRange.new]

/-- C9 (code evaluated at the failing input): on the default chart, whose
`x_range` is `None`, `SpectrumSVG::draw_series` hits
`self.x_range.as_ref().unwrap()` and panics — it does not produce a defined
"axis not initialized" error. -/
theorem claim_c9_draw_series_unset_axis_panics :
    SpectrumSVG.default.x_range = none ∧
    SpectrumSVG.draw_series LineSeries.plotSeriesImpl SpectrumSVG.default
      (LineSeries.mk [(100, 5)] (.fromLabel "line")) = .panicked :=
  ⟨rfl, rfl⟩

/-- C10: `PrecursorSeries::slice_y(a, b)` overwrites the stored intensity
with `a.max(b)` unconditionally, whatever the previous intensity was (the
rest of the series is untouched). -/
theorem claim_c10_slice_y_sets_max (p : PrecursorSeries) (a b : ℚ) :
    (p.slice_y a b).intensity = max a b ∧
    p.slice_y a b = { p with intensity := max a b } :=
  ⟨rfl, rfl⟩

/-- C8: a precursor whose m/z lies outside the closed slicing interval has
its visibility flag cleared by `slice_x`, after which `to_svg` returns the
bare empty group (no children, no attributes) while the stored m/z,
intensity and charge survive unchanged. -/
theorem claim_c8_precursor_out_of_frame (p : PrecursorSeries) (a b : ℚ)
    (canvas : Canvas) (h : p.mz ∉ Set.Icc a b) :
    (p.slice_x a b).to_svg canvas = .group [] [] ∧
    (p.slice_x a b).mz = p.mz ∧
    (p.slice_x a b).intensity = p.intensity ∧
    (p.slice_x a b).charge = p.charge := by
  have hin : decide (a ≤ p.mz ∧ p.mz ≤ b) = false := by
    simp only [Set.mem_Icc] at h
    simpa using h
  refine ⟨?_, rfl, rfl, rfl⟩
  simp [PrecursorSeries.to_svg, PrecursorSeries.slice_x, hin]

/-- Witness for C8: the precursor at m/z 500 with intensity 100, charge 2,
sliced to the window [600, 700], renders as an empty group on the default
canvas. -/
theorem claim_c8_precursor_out_of_frame_witness :
    (((PrecursorSeries.new 500 100 (some 2) (.fromLabel "precursor")).slice_x
        600 700).to_svg (Canvas.new 1400 600) = .group [] []) ∧
    ((PrecursorSeries.new 500 100 (some 2) (.fromLabel "precursor")).slice_x
        600 700).mz = 500 :=
  ⟨(claim_c8_precursor_out_of_frame _ 600 700 (Canvas.new 1400 600)
      (by norm_num [Set.mem_Icc, PrecursorSeries.new])).1,
   (claim_c8_precursor_out_of_frame _ 600 700 (Canvas.new 1400 600)
      (by norm_num [Set.mem_Icc, PrecursorSeries.new])).2.1⟩

/-- Composing two `List.filter`s where the inner predicate subsumes the outer
one collapses to a single filter by the outer predicate. -/
theorem filter_filter_of_subsume {α : Type} (l : List α) (p q : α → Bool)
    (h : ∀ a, p a = true → q a = true) :
    (l.filter q).filter p = l.filter p := by
  induction l with
  | nil => simp
  | cons x xs ih =>
    by_cases hq : q x = true
    · by_cases hp : p x = true <;> simp [List.filter_cons, hq, hp, ih]
    · have hp : p x = false := by
        cases hpx : p x
        · rfl
        · exact absurd (h x hpx) hq
      simp [List.filter_cons, hq, hp, ih]

/-- The interval-membership filter used by every point-list `slice_x`
characterizes retained points exactly. -/
theorem mem_filter_closed_interval {α : Type} (l : List α) (f : α → ℚ)
    (a b : ℚ) (x : α) :
    x ∈ l.filter (fun p => decide (a ≤ f p ∧ f p ≤ b)) ↔
      x ∈ l ∧ a ≤ f x ∧ f x ≤ b := by
  simp [List.mem_filter]

/-- Nested bounds subsume: a point passing the narrower closed-interval test
passes the wider one. -/
theorem closed_interval_subsume {α : Type} (f : α → ℚ) (a b a' b' : ℚ)
    (ha : a ≤ a') (hb : b' ≤ b) :
    ∀ x : α, decide (a' ≤ f x ∧ f x ≤ b') = true →
      decide (a ≤ f x ∧ f x ≤ b) = true := by
  intro x hx
  simp only [decide_eq_true_eq] at hx ⊢
  exact ⟨le_trans ha hx.1, le_trans hx.2 hb⟩

/-- C4: for every point-list series kind (ContinuousSeries, LineSeries,
AnnotationSeries, TraceSeries, ScatterSeries) and bounds `a ≤ b`, `slice_x`
retains exactly the points whose x lies in the closed interval `[a, b]`
(membership characterization), and slicing twice with nested, shrinking
bounds `[a', b'] ⊆ [a, b]` equals slicing once with the narrower bounds. -/
theorem claim_c4_slice_x_exact_and_nested (a b a' b' : ℚ) (hab : a ≤ b)
    (ha : a ≤ a') (hb : b' ≤ b) :
    ((∀ (s : ContinuousSeries) (pt : ℚ × ℚ),
        pt ∈ (s.slice_x a b).points ↔ pt ∈ s.points ∧ a ≤ pt.1 ∧ pt.1 ≤ b) ∧
      ∀ s : ContinuousSeries, (s.slice_x a b).slice_x a' b' = s.slice_x a' b') ∧
    ((∀ (s : LineSeries) (pt : ℚ × ℚ),
        pt ∈ (s.slice_x a b).points ↔ pt ∈ s.points ∧ a ≤ pt.1 ∧ pt.1 ≤ b) ∧
      ∀ s : LineSeries, (s.slice_x a b).slice_x a' b' = s.slice_x a' b') ∧
    ((∀ (s : AnnotationSeries) (pt : ℚ × ℚ × String),
        pt ∈ (s.slice_x a b).points ↔ pt ∈ s.points ∧ a ≤ pt.1 ∧ pt.1 ≤ b) ∧
      ∀ s : AnnotationSeries, (s.slice_x a b).slice_x a' b' = s.slice_x a' b') ∧
    ((∀ (s : TraceSeries) (pt : ℚ × ℚ),
        pt ∈ (s.slice_x a b).points ↔ pt ∈ s.points ∧ a ≤ pt.1 ∧ pt.1 ≤ b) ∧
      ∀ s : TraceSeries, (s.slice_x a b).slice_x a' b' = s.slice_x a' b') ∧
    ((∀ (s : ScatterSeries) (pt : ℚ × ℚ × ℚ),
        pt ∈ (s.slice_x a b).points ↔ pt ∈ s.points ∧ a ≤ pt.1 ∧ pt.1 ≤ b) ∧
      ∀ s : ScatterSeries, (s.slice_x a b).slice_x a' b' = s.slice_x a' b') := by
  refine ⟨⟨?_, ?_⟩, ⟨?_, ?_⟩, ⟨?_, ?_⟩, ⟨?_, ?_⟩, ⟨?_, ?_⟩⟩ <;>
    intro s
  case _ => exact fun pt => mem_filter_closed_interval s.points Prod.fst a b pt
  case _ =>
    simp only [ContinuousSeries.slice_x,
      filter_filter_of_subsume _ _ _ (closed_interval_subsume Prod.fst a b a' b' ha hb)]
  case _ => exact fun pt => mem_filter_closed_interval s.points Prod.fst a b pt
  case _ =>
    simp only [LineSeries.slice_x,
      filter_filter_of_subsume _ _ _ (closed_interval_subsume Prod.fst a b a' b' ha hb)]
  case _ => exact fun pt => mem_filter_closed_interval s.points Prod.fst a b pt
  case _ =>
    simp only [AnnotationSeries.slice_x,
      filter_filter_of_subsume _ _ _ (closed_interval_subsume Prod.fst a b a' b' ha hb)]
  case _ => exact fun pt => mem_filter_closed_interval s.points Prod.fst a b pt
  case _ =>
    simp only [TraceSeries.slice_x,
      filter_filter_of_subsume _ _ _ (closed_interval_subsume Prod.fst a b a' b' ha hb)]
  case _ => exact fun pt => mem_filter_closed_interval s.points Prod.fst a b pt
  case _ =>
    simp only [ScatterSeries.slice_x,
      filter_filter_of_subsume _ _ _ (closed_interval_subsume Prod.fst a b a' b' ha hb)]

/-- Witness for C4 at bounds [0, 10] then [1, 5] on a concrete three-point
line series: the boundary point is retained and double slicing collapses. -/
theorem claim_c4_slice_x_witness :
    (((10 : ℚ), (7 : ℚ)) ∈
        ((LineSeries.mk [(0.5, 1), (10, 7), (11, 2)] (.fromLabel "t")).slice_x 0 10).points ↔
      ((10 : ℚ), (7 : ℚ)) ∈ ([(0.5, 1), (10, 7), (11, 2)] : List (ℚ × ℚ)) ∧
        (0 : ℚ) ≤ 10 ∧ (10 : ℚ) ≤ 10) ∧
    ((LineSeries.mk [(0.5, 1), (10, 7), (11, 2)] (.fromLabel "t")).slice_x 0 10).slice_x 1 5 =
      (LineSeries.mk [(0.5, 1), (10, 7), (11, 2)] (.fromLabel "t")).slice_x 1 5 :=
  ⟨((claim_c4_slice_x_exact_and_nested 0 10 1 5 (by norm_num) (by norm_num)
      (by norm_num)).2.1.1 _ _),
   ((claim_c4_slice_x_exact_and_nested 0 10 1 5 (by norm_num) (by norm_num)
      (by norm_num)).2.1.2 _)⟩

/-- C5: `peaks_to_arrays` yields exactly three synthetic points per input
peak, in input order — `(mz - 0.0001, 0)`, `(mz, intensity)`,
`(mz + 0.0001, 0)` at positions `3i`, `3i+1`, `3i+2` — so n peaks give 3n
points; in particular a peak at m/z 500 with intensity 1000 expands to
`(499.9999, 0), (500, 1000), (500.0001, 0)`. -/
theorem claim_c5_peaks_to_arrays (ps : List Peak) :
    (peaks_to_arrays ps).length = 3 * ps.length ∧
    (∀ (i : Nat) (p : Peak), ps.get? i = some p →
      (peaks_to_arrays ps).get? (3 * i) = some (p.mz - 0.0001, 0) ∧
      (peaks_to_arrays ps).get? (3 * i + 1) = some (p.mz, p.intensity) ∧
      (peaks_to_arrays ps).get? (3 * i + 2) = some (p.mz + 0.0001, 0)) ∧
    peaks_to_arrays [⟨500, 1000⟩] = [(499.9999, 0), (500, 1000), (500.0001, 0)] := by
  refine ⟨?_, ?_, ?_⟩
  · induction ps with
    | nil => simp [peaks_to_arrays]
    | cons p rest ih => simp [peaks_to_arrays, ih]; ring
  · induction ps with
    | nil => intro i p h; simp at h
    | cons q rest ih =>
      intro i p h
      match i with
      | 0 =>
        simp only [List.get?_cons_zero, Option.some.injEq] at h
        subst h
        exact ⟨rfl, rfl, rfl⟩
      | j + 1 =>
        have h' : rest.get? j = some p := by simpa using h
        obtain ⟨g1, g2, g3⟩ := ih j p h'
        have e3 : 3 * (j + 1) = 3 * j + 1 + 1 + 1 := by ring
        refine ⟨?_, ?_, ?_⟩
        · rw [e3]; simpa [peaks_to_arrays, List.get?_cons_succ] using g1
        · rw [e3]; simpa [peaks_to_arrays, List.get?_cons_succ] using g2
        · rw [e3]; simpa [peaks_to_arrays, List.get?_cons_succ] using g3
  · norm_num [peaks_to_arrays]

/-- Witness for C5: the second peak of a concrete two-peak list expands into
positions 3, 4, 5. -/
theorem claim_c5_peaks_to_arrays_witness :
    (peaks_to_arrays [⟨500, 1000⟩, ⟨600, 50⟩]).get? (3 * 1) = some (600 - 0.0001, 0) ∧
    (peaks_to_arrays [⟨500, 1000⟩, ⟨600, 50⟩]).get? (3 * 1 + 1) = some (600, 50) ∧
    (peaks_to_arrays [⟨500, 1000⟩, ⟨600, 50⟩]).get? (3 * 1 + 2) = some (600 + 0.0001, 0) :=
  (claim_c5_peaks_to_arrays [⟨500, 1000⟩, ⟨600, 50⟩]).2.1 1 ⟨600, 50⟩ rfl

/-- C6: with no explicit `tick_values`, axis rendering generates exactly six
tick values — the i-th being the lesser domain bound plus
`i * |domain.end - domain.start| / 5` — for both orientations of the domain;
with explicit `tick_values` exactly those values are used. -/
theorem claim_c6_default_ticks (props : AxisProps) (domain : CoordinateRange) :
    (props.tick_values = none →
      (props.to_svg_values domain).length = 6 ∧
      (∀ i : Nat, i < 6 →
        (props.to_svg_values domain).get? i =
          some (min domain.start domain.end_ +
            |domain.end_ - domain.start| / 5 * i))) ∧
    (∀ vs, props.tick_values = some vs → props.to_svg_values domain = vs) := by
  constructor
  · intro hnone
    unfold AxisProps.to_svg_values
    rw [hnone]
    by_cases hle : domain.start ≤ domain.end_
    · simp only [if_pos hle]
      refine ⟨by simp, ?_⟩
      intro i hi
      rw [List.get?_eq_getElem?, List.getElem?_map, List.getElem?_range hi]
      simp only [Option.map_some']
      refine congrArg some ?_
      rw [min_eq_left hle,
        abs_of_nonneg (by linarith : (0 : ℚ) ≤ domain.end_ - domain.start)]
    · simp only [if_neg hle]
      push_neg at hle
      refine ⟨by simp, ?_⟩
      intro i hi
      rw [List.get?_eq_getElem?, List.getElem?_map, List.getElem?_range hi]
      simp only [Option.map_some']
      refine congrArg some ?_
      rw [min_eq_right hle.le,
        abs_of_neg (by linarith : domain.end_ - domain.start < 0)]
      ring
  · intro vs hvs
    unfold AxisProps.to_svg_values
    rw [hvs]

/-- Witness for C6: a bottom axis with default properties over the inverted
domain (100, 0) gets six ticks, the second one at 20. -/
theorem claim_c6_default_ticks_witness :
    ((AxisProps.new .bottom).to_svg_values (CoordinateRange.new 100 0)).length = 6 ∧
    ((AxisProps.new .bottom).to_svg_values (CoordinateRange.new 100 0)).get? 1 =
      some (min (CoordinateRange.new 100 0).start (CoordinateRange.new 100 0).end_ +
        |(CoordinateRange.new 100 0).end_ - (CoordinateRange.new 100 0).start| / 5 * 1) :=
  ⟨((claim_c6_default_ticks (AxisProps.new .bottom) (CoordinateRange.new 100 0)).1 rfl).1,
   ((claim_c6_default_ticks (AxisProps.new .bottom) (CoordinateRange.new 100 0)).1 rfl).2
      1 (by norm_num)⟩

/-- Widening a forward-oriented range by min/max accumulation only grows its
covered set. -/
theorem coveredValues_subset_min_max (s e m M : ℚ) (h : s ≤ e) :
    coveredValues ⟨s, e⟩ ⊆ coveredValues ⟨min s m, max e M⟩ := by
  intro x hx
  simp only [coveredValues, Set.mem_Icc, min_eq_left h, max_eq_right h] at hx
  simp only [coveredValues, Set.mem_Icc]
  exact ⟨le_trans (le_trans (min_le_left _ _) (min_le_left _ _)) hx.1,
    le_trans hx.2 (le_trans (le_max_left _ _) (le_max_right _ _))⟩

/-- Raising the start of a backward-oriented range (start above end) only
grows its covered set. -/
theorem coveredValues_subset_max_start (s e m : ℚ) (h : e ≤ s) :
    coveredValues ⟨s, e⟩ ⊆ coveredValues ⟨max s m, e⟩ := by
  intro x hx
  simp only [coveredValues, Set.mem_Icc, min_eq_right h, max_eq_left h] at hx
  simp only [coveredValues, Set.mem_Icc]
  exact ⟨le_trans (min_le_right _ _) hx.1,
    le_trans hx.2 (le_trans (le_max_left _ _) (le_max_left _ _))⟩

/-- Counterexample to C7 as stated: on a chart whose established X range is
inverted — (10, 0), covering [0, 10] — `axes_from` with data bounds
min_mz = 5, max_mz = 6 produces the X range (5, 6), which covers only
[5, 6]: the new interval does not contain the previous one (10 is lost), so
`axes_from` is not unconditionally widening. -/
theorem claim_c7_counterexample :
    ({ SpectrumSVG.default with
        x_range := some (CoordinateRange.new 10 0)
        y_range := some (CoordinateRange.new 100 0) }.axes_from 100 5 6).x_range =
      some (CoordinateRange.new 5 6) ∧
    ¬ (coveredValues (CoordinateRange.new 10 0) ⊆
        coveredValues (CoordinateRange.new 5 6)) := by
  constructor
  · decide
  · intro hsub
    have h10 : (10 : ℚ) ∈ coveredValues (CoordinateRange.new 10 0) := by
      simp only [coveredValues, CoordinateRange.new, Set.mem_Icc]
      norm_num
    have := hsub h10
    simp only [coveredValues, CoordinateRange.new, Set.mem_Icc] at this
    norm_num at this

/-- C7 amended: for every chart (SpectrumSVG or FeatureSVG) whose
already-set X range is forward-oriented (`start ≤ end`) and whose Y range is
backward-oriented (`end ≤ start` — the orientations every chart constructor
in the source establishes), `axes_from` only widens: the covered set of each
new axis interval contains the previous one, the new bounds coming from
min/max accumulation against the data source's bounds. -/
theorem claim_c7_axes_from_widens_oriented :
    (∀ (chart : SpectrumSVG) (xr yr : CoordinateRange) (max_int min_mz max_mz : ℚ),
      chart.x_range = some xr → chart.y_range = some yr →
      xr.start ≤ xr.end_ → yr.end_ ≤ yr.start →
      ∃ xr' yr',
        (chart.axes_from max_int min_mz max_mz).x_range = some xr' ∧
        (chart.axes_from max_int min_mz max_mz).y_range = some yr' ∧
        coveredValues xr ⊆ coveredValues xr' ∧
        coveredValues yr ⊆ coveredValues yr') ∧
    (∀ (chart : FeatureSVG) (xr yr : CoordinateRange) (max_int start_time end_time : ℚ),
      chart.x_range = some xr → chart.y_range = some yr →
      xr.start ≤ xr.end_ → yr.end_ ≤ yr.start →
      ∃ xr' yr',
        (chart.axes_from max_int start_time end_time).x_range = some xr' ∧
        (chart.axes_from max_int start_time end_time).y_range = some yr' ∧
        coveredValues xr ⊆ coveredValues xr' ∧
        coveredValues yr ⊆ coveredValues yr') := by
  constructor
  · intro chart xr yr max_int min_mz max_mz hx hy hxo hyo
    refine ⟨⟨min xr.start min_mz, max xr.end_ max_mz⟩,
      ⟨max yr.start max_int, yr.end_⟩, ?_, ?_, ?_, ?_⟩
    · simp [SpectrumSVG.axes_from, hx, hy]
    · simp [SpectrumSVG.axes_from, hx, hy]
    · exact coveredValues_subset_min_max _ _ _ _ hxo
    · exact coveredValues_subset_max_start _ _ _ hyo
  · intro chart xr yr max_int start_time end_time hx hy hxo hyo
    refine ⟨⟨min xr.start start_time, max xr.end_ end_time⟩,
      ⟨max yr.start max_int, yr.end_⟩, ?_, ?_, ?_, ?_⟩
    · simp [FeatureSVG.axes_from, hx, hy]
    · simp [FeatureSVG.axes_from, hx, hy]
    · exact coveredValues_subset_min_max _ _ _ _ hxo
    · exact coveredValues_subset_max_start _ _ _ hyo

/-- Witness for amended C7: a chart with X range (0, 100) and Y range
(50, 0) widened by a data source with intensity max 80 and m/z bounds
10 to 150. -/
theorem claim_c7_axes_from_widens_witness :
    ∃ xr' yr',
      ({ SpectrumSVG.default with
          x_range := some (CoordinateRange.new 0 100)
          y_range := some (CoordinateRange.new 50 0) }.axes_from 80 10 150).x_range =
        some xr' ∧
      ({ SpectrumSVG.default with
          x_range := some (CoordinateRange.new 0 100)
          y_range := some (CoordinateRange.new 50 0) }.axes_from 80 10 150).y_range =
        some yr' ∧
      coveredValues (CoordinateRange.new 0 100) ⊆ coveredValues xr' ∧
      coveredValues (CoordinateRange.new 50 0) ⊆ coveredValues yr' :=
  claim_c7_axes_from_widens_oriented.1 _ (CoordinateRange.new 0 100)
    (CoordinateRange.new 50 0) 80 10 150 rfl rfl
    (by norm_num [CoordinateRange.new]) (by norm_num [CoordinateRange.new])

/-- The state update performed by one `ColorCycle::next` call. -/
theorem ColorCycle.next_snd (colors : List String) (i : Nat) :
    (ColorCycle.next ⟨colors, i⟩).2 =
      ⟨colors, (if i + 1 ≥ colors.length then 0 else i) + 1⟩ := by
  unfold ColorCycle.next
  by_cases h : i + 1 ≥ colors.length <;> simp [h]

/-- The value yielded by one `ColorCycle::next` call. -/
theorem ColorCycle.next_fst (colors : List String) (i : Nat) :
    (ColorCycle.next ⟨colors, i⟩).1 =
      colors.get? (if i + 1 ≥ colors.length then 0 else i) := by
  unfold ColorCycle.next
  by_cases h : i + 1 ≥ colors.length <;> simp [h]

/-- Cursor invariant of a `ColorCycle` started at index 0 over at least two
colors: after `k` calls the cursor sits at `(k - 1) % (n - 1) + 1` (0 before
the first call) — the cursor never reaches index `n - 1` at rest, which is
why the final color is never yielded. -/
theorem ColorCycle.stateAfter_start (colors : List String)
    (h2 : 2 ≤ colors.length) (k : Nat) :
    ColorCycle.stateAfter ⟨colors, 0⟩ k =
      ⟨colors, if k = 0 then 0 else (k - 1) % (colors.length - 1) + 1⟩ := by
  induction k with
  | zero => rfl
  | succ j ih =>
    show ((ColorCycle.stateAfter ⟨colors, 0⟩ j).next).2 = _
    rw [ih, ColorCycle.next_snd]
    have hj1 : ¬ (j + 1 = 0) := Nat.succ_ne_zero j
    rw [if_neg hj1]
    simp only [ColorCycle.mk.injEq, Nat.add_sub_cancel, true_and]
    by_cases hj : j = 0
    · subst hj
      have hcond : ¬ (0 + 1 ≥ colors.length) := by omega
      simp [hcond]
    · rw [if_neg hj]
      have hrlt : (j - 1) % (colors.length - 1) < colors.length - 1 :=
        Nat.mod_lt _ (by omega)
      have key : j % (colors.length - 1) =
          ((j - 1) % (colors.length - 1) + 1) % (colors.length - 1) := by
        conv_lhs => rw [show j = (j - 1) + 1 by omega]
        rw [Nat.add_mod (j - 1) 1, Nat.add_mod ((j - 1) % (colors.length - 1)) 1,
          Nat.mod_eq_of_lt hrlt]
      by_cases hcase : (j - 1) % (colors.length - 1) + 1 = colors.length - 1
      · have hcond : (j - 1) % (colors.length - 1) + 1 + 1 ≥ colors.length := by omega
        rw [if_pos hcond, key, hcase, Nat.mod_self]
      · have hcond : ¬ ((j - 1) % (colors.length - 1) + 1 + 1 ≥ colors.length) := by
          omega
        rw [if_neg hcond, key,
          Nat.mod_eq_of_lt (by omega : (j - 1) % (colors.length - 1) + 1 < colors.length - 1)]

/-- The value yielded by call `k + 1` of a `ColorCycle` started at index 0
over at least two colors: the palette entry at `k % (n - 1)` — period
`n - 1`, not `n`. -/
theorem ColorCycle.nthNext_start (colors : List String)
    (h2 : 2 ≤ colors.length) (k : Nat) :
    ColorCycle.nthNext ⟨colors, 0⟩ k = colors.get? (k % (colors.length - 1)) := by
  show ((ColorCycle.stateAfter ⟨colors, 0⟩ k).next).1 = _
  rw [ColorCycle.stateAfter_start colors h2 k, ColorCycle.next_fst]
  by_cases hk : k = 0
  · subst hk
    have hcond : ¬ (0 + 1 ≥ colors.length) := by omega
    simp [hcond]
  · rw [if_neg hk]
    have hrlt : (k - 1) % (colors.length - 1) < colors.length - 1 :=
      Nat.mod_lt _ (by omega)
    have key : k % (colors.length - 1) =
        ((k - 1) % (colors.length - 1) + 1) % (colors.length - 1) := by
      conv_lhs => rw [show k = (k - 1) + 1 by omega]
      rw [Nat.add_mod (k - 1) 1, Nat.add_mod ((k - 1) % (colors.length - 1)) 1,
        Nat.mod_eq_of_lt hrlt]
    by_cases hcase : (k - 1) % (colors.length - 1) + 1 = colors.length - 1
    · have hcond : (k - 1) % (colors.length - 1) + 1 + 1 ≥ colors.length := by omega
      rw [if_pos hcond, key, hcase, Nat.mod_self]
    · have hcond : ¬ ((k - 1) % (colors.length - 1) + 1 + 1 ≥ colors.length) := by
        omega
      rw [if_neg hcond, key,
        Nat.mod_eq_of_lt (by omega : (k - 1) % (colors.length - 1) + 1 < colors.length - 1)]

/-- Counterexample to C3 as stated: over the two-color palette [a, b], the
claim puts call 2 at palette[(2-1) mod 2] = b, but the code yields a — the
reset fires at `index + 1 >= len`, one position early. -/
theorem claim_c3_counterexample :
    (ColorCycle.mk ["a", "b"] 0).nthNext 1 = some "a" ∧
    (["a", "b"] : List String).get? ((2 - 1) % 2) = some "b" ∧
    (some "a" : Option String) ≠ some "b" := by
  refine ⟨by decide, by decide, by decide⟩

/-- C3 amended: for a palette of n ≥ 2 colors, call `k + 1` (i.e. the k-th
call 1-indexed with k ≥ 1 shifted down by one) yields
`palette[k mod (n - 1)]`, and never `none` (the iteration does not
terminate): the cycle wraps one position early, returning the first color
again already at call n, and the last palette color is never yielded.  (For
n = 1 the single color repeats, agreeing with the claim.) -/
theorem claim_c3_color_cycle_wraps_early (colors : List String) (k : Nat)
    (h2 : 2 ≤ colors.length) :
    (ColorCycle.mk colors 0).nthNext k = colors.get? (k % (colors.length - 1)) ∧
    ((ColorCycle.mk colors 0).nthNext k).isSome = true := by
  have hval := ColorCycle.nthNext_start colors h2 k
  refine ⟨hval, ?_⟩
  rw [hval]
  have hlt : k % (colors.length - 1) < colors.length :=
    lt_of_lt_of_le (Nat.mod_lt _ (by omega)) (by omega)
  rw [List.get?_eq_get hlt]
  rfl

/-- Witness for amended C3: over [a, b, c] the third call (k = 2) wraps back
to the first color. -/
theorem claim_c3_color_cycle_wraps_early_witness :
    (ColorCycle.mk ["a", "b", "c"] 0).nthNext 2 =
      (["a", "b", "c"] : List String).get? (2 % 2) ∧
    ((ColorCycle.mk ["a", "b", "c"] 0).nthNext 2).isSome = true :=
  claim_c3_color_cycle_wraps_early ["a", "b", "c"] 2 (by decide)
